import Mathlib

/-!
Shallow embedding of the freedraw drawing widget
(`src/components/drawing-app.tsx`).

The component owns a raster canvas (`canvasRef`) and its 2D rendering
context (`ctxRef`), plus React state for background color, stroke color,
tool, stroke width and the drawing flag.  Pixels are modelled as CSS color
strings; the buffer is a total function from integer pixel coordinates to
colors, with reads outside the canvas bounds never observed by the
operations modelled here.  JavaScript numbers that stay on small integers
(canvas dimensions, ImageData offsets) are modelled as `Nat`; coordinate
arithmetic and stroke geometry use `Rat`.
-/

/-- The two drawing tools of the app (`type Tool = "pencil" | "eraser"`). -/
inductive Tool
  | pencil
  | eraser
deriving DecidableEq

/-- A point in surface-local coordinates, as produced by `getCoordinates`. -/
structure Pt where
  x : Rat
  y : Rat
deriving DecidableEq

/-- The raster canvas: its pixel dimensions and its pixel buffer.  The
buffer maps a pixel coordinate to the color currently stored there. -/
structure Canvas where
  width : Nat
  height : Nat
  buf : Nat → Nat → String

/-- The 2D rendering context state that the component mutates:
`strokeStyle`, `fillStyle`, `lineWidth`, `lineCap`, `lineJoin`, and the
current path (the points accumulated by `beginPath`/`moveTo`/`lineTo`,
with `pathOpen` recording whether `closePath` has been called). -/
structure Ctx where
  strokeStyle : String
  fillStyle : String
  lineWidth : Rat
  lineCap : String
  lineJoin : String
  path : List Pt
  pathOpen : Bool

/-- The whole component state: the two refs (`canvasRef`, `ctxRef`)
modelled as presence flags, the canvas and context, and the React state
variables `bgColor`, `strokeColor`, `tool`, `strokeWidth`, `isDrawing`.
The `currentXRef` mirror refs always hold the same values as the state
(the sync effect at lines 150-155 keeps them equal), so they are not
duplicated here. -/
structure AppState where
  hasCanvas : Bool
  hasCtx : Bool
  canvas : Canvas
  ctx : Ctx
  bgColor : String
  strokeColor : String
  tool : Tool
  strokeWidth : Rat
  isDrawing : Bool

/-- The effective stroke color: `tool === "eraser" ? bgColor : strokeColor`,
the expression the component re-applies on every configuration change. -/
def effectiveStroke (st : AppState) : String :=
  if st.tool = Tool.eraser then st.bgColor else st.strokeColor

/-- The `putImageData` offset used by `handleResize`:
`Math.max(0, (newSize - oldSize) / 2)`.  The JS value is a non-negative
float that `putImageData` truncates to an integer, which for a
non-negative value coincides with `Nat` division by 2. -/
def resizeOffset (newSize oldSize : Nat) : Nat :=
  if oldSize ≤ newSize then (newSize - oldSize) / 2 else 0

/-- The sync effect at lines 187-194: whenever `bgColor`, `strokeColor`,
`strokeWidth` or `tool` changes, re-apply `ctx.strokeStyle` (effective
stroke color) and `ctx.lineWidth`; no-op when the context ref is null. -/
def syncEffect (st : AppState) : AppState :=
  if st.hasCtx then
    { st with ctx := { st.ctx with
        strokeStyle := effectiveStroke st,
        lineWidth := st.strokeWidth } }
  else st

/-- Model of `ctx.fillRect(0, 0, canvas.width, canvas.height)` with `fillStyle`
set to `color`: every pixel inside the canvas bounds becomes `color`. -/
def fillRectFull (w h : Nat) (color : String) (buf : Nat → Nat → String) :
    Nat → Nat → String :=
  fun i j => if i < w ∧ j < h then color else buf i j

/-- Model of `updateCanvasBg` (lines 272-283): store the new background color in
React state, then (if canvas and context exist) re-apply the stroke style
for the eraser case, set `fillStyle` to the new color and fill the whole
canvas with it. -/
def updateCanvasBg (color : String) (st : AppState) : AppState :=
  let st1 := { st with bgColor := color }
  if st1.hasCanvas ∧ st1.hasCtx then
    { st1 with
      ctx := { st1.ctx with
        strokeStyle := if st1.tool = Tool.eraser then color else st1.strokeColor,
        fillStyle := color },
      canvas := { st1.canvas with
        buf := fillRectFull st1.canvas.width st1.canvas.height color
                 st1.canvas.buf } }
  else st1

/-- Model of `updateCanvasStrokeColor` (lines 289-296): store the new stroke color,
then (if the context exists) re-apply the effective stroke style. -/
def updateCanvasStrokeColor (color : String) (st : AppState) : AppState :=
  let st1 := { st with strokeColor := color }
  if st1.hasCtx then
    { st1 with ctx := { st1.ctx with
        strokeStyle := if st1.tool = Tool.eraser then st1.bgColor else color } }
  else st1

/-- Model of `updateCanvasStrokeWidth` (lines 302-307): store the new width, then
(if the context exists) set `ctx.lineWidth`. -/
def updateCanvasStrokeWidth (width : Rat) (st : AppState) : AppState :=
  let st1 := { st with strokeWidth := width }
  if st1.hasCtx then
    { st1 with ctx := { st1.ctx with lineWidth := width } }
  else st1

/-- Model of `updateCanvasTool` (lines 354-361): store the new tool, then (if the
context exists) re-apply the effective stroke style for that tool. -/
def updateCanvasTool (t : Tool) (st : AppState) : AppState :=
  let st1 := { st with tool := t }
  if st1.hasCtx then
    { st1 with ctx := { st1.ctx with
        strokeStyle := if t = Tool.eraser then st1.bgColor else st1.strokeColor } }
  else st1

/-- The user-visible `setStrokeColor` operation: the update function runs,
and React then re-runs the configuration sync effect with the new state. -/
def setStrokeColorOp (color : String) (st : AppState) : AppState :=
  syncEffect (updateCanvasStrokeColor color st)

/-- The user-visible `setBackgroundColor` operation: `updateCanvasBg`
followed by the configuration sync effect. -/
def setBackgroundColorOp (color : String) (st : AppState) : AppState :=
  syncEffect (updateCanvasBg color st)

/-- The user-visible `setStrokeWidth` operation: `updateCanvasStrokeWidth`
followed by the configuration sync effect. -/
def setStrokeWidthOp (width : Rat) (st : AppState) : AppState :=
  syncEffect (updateCanvasStrokeWidth width st)

/-- The user-visible `setTool` operation: `updateCanvasTool` followed by
the configuration sync effect. -/
def setToolOp (t : Tool) (st : AppState) : AppState :=
  syncEffect (updateCanvasTool t st)

/-- Model of `handleResize` (lines 200-247): snapshot the buffer with
`getImageData`, set the canvas dimensions to the container's client size,
re-apply `lineCap`/`lineJoin`/`strokeStyle`/`lineWidth`, fill the new
buffer with the background color, and `putImageData` the snapshot back at
offset `(max 0 ((newW - oldW)/2), max 0 ((newH - oldH)/2))`.  Reallocation
resets pixels outside the filled region to transparent; `putImageData`
overwrites destination pixels inside both the snapshot rectangle and the
canvas bounds.

The buffer produced by `handleResize`: a fresh `clientW × clientH`
buffer, filled with the background color inside its bounds, with the
`oldW × oldH` snapshot pasted by `putImageData` at offset `(dx, dy)`;
pixels outside the new bounds are the transparent pixels of the fresh
allocation. -/
def resizedBuf (clientW clientH oldW oldH dx dy : Nat) (bg : String)
    (snap : Nat → Nat → String) : Nat → Nat → String :=
  fun i j =>
    if dx ≤ i ∧ i < dx + oldW ∧ dy ≤ j ∧ j < dy + oldH ∧
       i < clientW ∧ j < clientH then
      snap (i - dx) (j - dy)
    else if i < clientW ∧ j < clientH then bg
    else "transparent"

def handleResize (clientW clientH : Nat) (st : AppState) : AppState :=
  if st.hasCanvas ∧ st.hasCtx then
    { st with
      canvas := { width := clientW, height := clientH,
                  buf := resizedBuf clientW clientH
                           st.canvas.width st.canvas.height
                           (resizeOffset clientW st.canvas.width)
                           (resizeOffset clientH st.canvas.height)
                           st.bgColor st.canvas.buf },
      ctx := { st.ctx with
        lineCap := "round",
        lineJoin := "round",
        strokeStyle := effectiveStroke st,
        lineWidth := st.strokeWidth,
        fillStyle := st.bgColor } }
  else st

/-- Squared distance from a point to the segment from `a` to `b`, used to
give the round-capped rasterizer a concrete footprint: the platform
rasterizer with `lineCap`/`lineJoin` round paints the pixels within
distance `lineWidth / 2` of the stroked polyline. -/
def dist2PointSeg (p a b : Pt) : Rat :=
  let dxv := b.x - a.x
  let dyv := b.y - a.y
  let dd := dxv * dxv + dyv * dyv
  if dd = 0 then (p.x - a.x) * (p.x - a.x) + (p.y - a.y) * (p.y - a.y)
  else
    let t := max 0 (min 1 (((p.x - a.x) * dxv + (p.y - a.y) * dyv) / dd))
    let cx := a.x + t * dxv
    let cy := a.y + t * dyv
    (p.x - cx) * (p.x - cx) + (p.y - cy) * (p.y - cy)

/-- Consecutive segments of a polyline path. -/
def segmentsOf : List Pt → List (Pt × Pt)
  | a :: b :: rest => (a, b) :: segmentsOf (b :: rest)
  | _ => []

/-- Whether the round stroke of width `w` along `path` covers point `p`. -/
def pathCovers (w : Rat) (path : List Pt) (p : Pt) : Bool :=
  (segmentsOf path).any fun s => decide (dist2PointSeg p s.1 s.2 ≤ (w / 2) ^ 2)

/-- The buffer after one `ctx.stroke()` call: every in-bounds pixel whose
center lies within the stroke footprint of the path is painted with the
stroke color; all other pixels keep their previous value. -/
def strokedBuf (w h : Nat) (lw : Rat) (path : List Pt) (color : String)
    (buf : Nat → Nat → String) : Nat → Nat → String :=
  fun i j =>
    if i < w ∧ j < h ∧
       pathCovers lw path { x := (i : Rat) + 1/2, y := (j : Rat) + 1/2 } = true then
      color
    else buf i j

/-- Model of `ctx.stroke()`: paint the current path's footprint onto the
canvas with `ctx.strokeStyle` and `ctx.lineWidth`. -/
def strokeOp (st : AppState) : AppState :=
  { st with canvas := { st.canvas with
      buf := strokedBuf st.canvas.width st.canvas.height st.ctx.lineWidth
               st.ctx.path st.ctx.strokeStyle st.canvas.buf } }

/-- Model of `startDrawing` (lines 395-409) at already-resolved local
coordinates: if the context exists, `beginPath`, `moveTo(p)`, `lineTo(p)`,
`stroke()` (rendering a dot), then `setIsDrawing(true)`. -/
def startDrawing (p : Pt) (st : AppState) : AppState :=
  if st.hasCtx then
    { strokeOp { st with ctx := { st.ctx with path := [p, p], pathOpen := true } }
      with isDrawing := true }
  else st

/-- Model of `draw` (lines 415-426) at already-resolved local coordinates:
if the session is drawing and the context exists, `lineTo(p)` extends the
current path and `stroke()` renders it. -/
def draw (p : Pt) (st : AppState) : AppState :=
  if st.isDrawing ∧ st.hasCtx then
    strokeOp { st with ctx := { st.ctx with path := st.ctx.path ++ [p] } }
  else st

/-- Model of `stopDrawing` (lines 431-435): if the context exists,
`closePath()` and `setIsDrawing(false)`. -/
def stopDrawing (st : AppState) : AppState :=
  if st.hasCtx then
    { st with ctx := { st.ctx with pathOpen := false }, isDrawing := false }
  else st

/-- The pointer events the canvas element subscribes to (lines 537-543). -/
inductive CanvasPointerEvent
  | mouseDown (p : Pt)
  | mouseMove (p : Pt)
  | mouseUp
  | mouseOut
  | touchStart (p : Pt)
  | touchMove (p : Pt)
  | touchEnd

/-- The canvas element's handler wiring (lines 537-543): `onMouseDown` and
`onTouchStart` invoke `startDrawing`, `onMouseMove` and `onTouchMove`
invoke `draw`, and `onMouseUp`, `onMouseOut` and `onTouchEnd` all invoke
`stopDrawing`. -/
def dispatchCanvasEvent : CanvasPointerEvent → AppState → AppState
  | .mouseDown p, st => startDrawing p st
  | .mouseMove p, st => draw p st
  | .mouseUp, st => stopDrawing st
  | .mouseOut, st => stopDrawing st
  | .touchStart p, st => startDrawing p st
  | .touchMove p, st => draw p st
  | .touchEnd, st => stopDrawing st

/-- The part of `canvas.getBoundingClientRect()` that `getCoordinates`
reads: the viewport position of the canvas's top-left corner. -/
structure BoundingRect where
  left : Rat
  top : Rat

/-- The event data `getCoordinates` consumes: a mouse event's
`clientX`/`clientY`, or a touch event's list of touch points (each with
its own `clientX`/`clientY`). -/
inductive PointerEventData
  | mouse (clientX clientY : Rat)
  | touch (touches : List (Rat × Rat))

/-- Model of `getCoordinates` (lines 368-389).  When the canvas ref is
null it returns the default `(0, 0)`.  Otherwise, a touch event reads
`e.touches[0]` (a runtime `TypeError` when the touch list is empty,
modelled as an exception) and a mouse event reads `e.clientX`/`e.clientY`;
both branches subtract the bounding rectangle's `left`/`top`. -/
def getCoordinates (canvas : Option BoundingRect) (e : PointerEventData) :
    Except String (Rat × Rat) :=
  match canvas with
  | none => .ok (0, 0)
  | some rect =>
    match e with
    | .touch [] => .error "TypeError"
    | .touch (t :: _) => .ok (t.1 - rect.left, t.2 - rect.top)
    | .mouse cx cy => .ok (cx - rect.left, cy - rect.top)

/-- A data URL as produced by `canvas.toDataURL`: the requested MIME type
together with the encoded pixel content (kept symbolically as the raster
it encodes, since the byte-level PNG encoding is the platform's). -/
structure DataURL where
  mime : String
  width : Nat
  height : Nat
  pixels : Nat → Nat → String

/-- Model of `canvas.toDataURL(mime)`: losslessly encode the current
buffer under the requested MIME type. -/
def toDataURL (c : Canvas) (mime : String) : DataURL :=
  { mime := mime, width := c.width, height := c.height, pixels := c.buf }

/-- The anchor element `saveImage` constructs: its `href` (the data URL)
and its `download` attribute (the filename of the exported file). -/
structure DownloadLink where
  href : DataURL
  download : String

/-- Model of `saveImage` (lines 440-450): when the canvas ref is null the
function returns without exporting; otherwise it builds a link whose
`href` is `canvas.toDataURL("image/png")` and whose `download` filename is
the constant string `"drawing.png"`, and clicks it. -/
def saveImage (st : AppState) : Option DownloadLink :=
  if st.hasCanvas then
    some { href := toDataURL st.canvas "image/png", download := "drawing.png" }
  else none

/-- Modelled from the spec: the filename pattern
`Drawing YYYY-MM-DD at H.MM.SS AM/PM .png` that section 6 of the spec
claims `saveImage` derives from the local clock.  `specPatternNecessary`
checks two conditions every instance of that pattern satisfies: the name
starts with `Drawing ` and ends with `.png` (stated over the character
list of the string).  No filename failing this check matches the spec's
pattern for any clock reading. -/
def specPatternNecessary (s : String) : Bool :=
  decide (s.data.take 8 = "Drawing ".data) &&
  decide (s.data.drop (s.data.length - 4) = ".png".data)

/-- Model of `applyImageToCanvas` (lines 313-348), geometry part: the
cover scale `max (canvasW / imgW) (canvasH / imgH)` and the centered
destination origin `((canvasW - imgW * scale) / 2, (canvasH - imgH *
scale) / 2)`; the image is then drawn into the rectangle from that origin
with size `(imgW * scale, imgH * scale)`. -/
def applyImageToCanvas (canvasW canvasH imgW imgH : Rat) : Rat × Rat × Rat :=
  let scale := max (canvasW / imgW) (canvasH / imgH)
  ((canvasW - imgW * scale) / 2, (canvasH - imgH * scale) / 2, scale)

/-- A full pointer gesture after the initial pointer-down: each move event
runs `draw` at its resolved local position. -/
def gestureFold (moves : List Pt) (st : AppState) : AppState :=
  moves.foldl (fun s q => draw q s) st

/-- A concrete initialized 2x1 surface used by the evaluation theorems:
pixel (0,0) holds ink color `#111111`, pixel (1,0) holds ink color
`#222222`, on a white background with a black pencil of width 5. -/
def sampleState : AppState :=
  { hasCanvas := true, hasCtx := true,
    canvas := { width := 2, height := 1,
                buf := fun i _ => if i = 0 then "#111111" else "#222222" },
    ctx := { strokeStyle := "#000000", fillStyle := "#ffffff", lineWidth := 5,
             lineCap := "round", lineJoin := "round",
             path := [], pathOpen := false },
    bgColor := "#ffffff", strokeColor := "#000000", tool := Tool.pencil,
    strokeWidth := 5, isDrawing := false }

theorem setStrokeColorOp_canvas (c : String) (st : AppState) :
    (setStrokeColorOp c st).canvas = st.canvas := by
  simp only [setStrokeColorOp, updateCanvasStrokeColor, syncEffect]
  split_ifs <;> rfl

theorem setStrokeWidthOp_canvas (w : Rat) (st : AppState) :
    (setStrokeWidthOp w st).canvas = st.canvas := by
  simp only [setStrokeWidthOp, updateCanvasStrokeWidth, syncEffect]
  split_ifs <;> rfl

theorem setToolOp_canvas (t : Tool) (st : AppState) :
    (setToolOp t st).canvas = st.canvas := by
  simp only [setToolOp, updateCanvasTool, syncEffect]
  split_ifs <;> rfl

/-- C7: a touch event whose first touch point is at a viewport position
and a mouse event at the same position resolve through `getCoordinates`
to identical surface-local coordinates, for every mounted canvas: both
branches compute `clientX` minus the bounding box's left edge and
`clientY` minus its top edge. -/
theorem getCoordinates_touch_mouse_agree (rect : BoundingRect)
    (cx cy : Rat) (rest : List (Rat × Rat)) :
    getCoordinates (some rect) (.touch ((cx, cy) :: rest)) =
      getCoordinates (some rect) (.mouse cx cy) ∧
    getCoordinates (some rect) (.mouse cx cy) =
      .ok (cx - rect.left, cy - rect.top) := ⟨rfl, rfl⟩

/-- C10: while the canvas element is not mounted, `getCoordinates` returns
the fixed default surface-local coordinates `(0, 0)` for every pointer
event, rather than failing. -/
theorem getCoordinates_unmounted_default (e : PointerEventData) :
    getCoordinates none e = .ok (0, 0) := rfl

/-- C8: on an initialized surface, each of the pointer-up and
pointer-leave events (`onMouseUp`, `onMouseOut`, `onTouchEnd`, all wired
to `stopDrawing`) closes the current path and marks the stroke session as
not drawing. -/
theorem stopDrawing_ends_stroke (st : AppState) (h : st.hasCtx = true) :
    (dispatchCanvasEvent .mouseUp st).isDrawing = false ∧
    (dispatchCanvasEvent .mouseUp st).ctx.pathOpen = false ∧
    (dispatchCanvasEvent .mouseOut st).isDrawing = false ∧
    (dispatchCanvasEvent .mouseOut st).ctx.pathOpen = false ∧
    (dispatchCanvasEvent .touchEnd st).isDrawing = false ∧
    (dispatchCanvasEvent .touchEnd st).ctx.pathOpen = false := by
  simp [dispatchCanvasEvent, stopDrawing, h]

theorem stopDrawing_ends_stroke_witness :
    (dispatchCanvasEvent .mouseUp sampleState).isDrawing = false ∧
    (dispatchCanvasEvent .mouseUp sampleState).ctx.pathOpen = false ∧
    (dispatchCanvasEvent .mouseOut sampleState).isDrawing = false ∧
    (dispatchCanvasEvent .mouseOut sampleState).ctx.pathOpen = false ∧
    (dispatchCanvasEvent .touchEnd sampleState).isDrawing = false ∧
    (dispatchCanvasEvent .touchEnd sampleState).ctx.pathOpen = false :=
  stopDrawing_ends_stroke sampleState rfl

/-- C3: after any of the four configuration setters runs on an
initialized surface, the context's active stroke style equals the
effective stroke color of the resulting state (the background color if
the tool is the eraser, the stroke color otherwise). -/
theorem setters_reapply_effective_stroke (st : AppState) (c c2 : String)
    (w : Rat) (t : Tool) (h : st.hasCtx = true) :
    (setStrokeColorOp c st).ctx.strokeStyle =
      effectiveStroke (setStrokeColorOp c st) ∧
    (setBackgroundColorOp c2 st).ctx.strokeStyle =
      effectiveStroke (setBackgroundColorOp c2 st) ∧
    (setStrokeWidthOp w st).ctx.strokeStyle =
      effectiveStroke (setStrokeWidthOp w st) ∧
    (setToolOp t st).ctx.strokeStyle = effectiveStroke (setToolOp t st) := by
  refine ⟨?_, ?_, ?_, ?_⟩ <;>
    simp [setStrokeColorOp, setBackgroundColorOp, setStrokeWidthOp, setToolOp,
      updateCanvasStrokeColor, updateCanvasBg, updateCanvasStrokeWidth,
      updateCanvasTool, syncEffect, effectiveStroke, h] <;>
    split_ifs <;> simp_all

theorem setters_reapply_effective_stroke_witness :
    (setStrokeColorOp "#e03130" sampleState).ctx.strokeStyle =
      effectiveStroke (setStrokeColorOp "#e03130" sampleState) ∧
    (setBackgroundColorOp "#2f9e44" sampleState).ctx.strokeStyle =
      effectiveStroke (setBackgroundColorOp "#2f9e44" sampleState) ∧
    (setStrokeWidthOp 10 sampleState).ctx.strokeStyle =
      effectiveStroke (setStrokeWidthOp 10 sampleState) ∧
    (setToolOp Tool.eraser sampleState).ctx.strokeStyle =
      effectiveStroke (setToolOp Tool.eraser sampleState) :=
  setters_reapply_effective_stroke sampleState "#e03130" "#2f9e44" 10
    Tool.eraser rfl

/-- C2, counterexample: `setBackgroundColor` is not a buffer-preserving
configuration update.  On the concrete initialized sample surface, whose
pixel (0,0) holds `#111111`, setting the background color to `#e03130`
changes that pixel to `#e03130`. -/
theorem setBackgroundColor_changes_buffer_cex :
    (setBackgroundColorOp "#e03130" sampleState).canvas.buf 0 0 = "#e03130" ∧
    sampleState.canvas.buf 0 0 = "#111111" ∧
    (setBackgroundColorOp "#e03130" sampleState).canvas.buf 0 0 ≠
      sampleState.canvas.buf 0 0 := by
  refine ⟨rfl, rfl, ?_⟩
  decide

/-- C2, amended: on an initialized surface, `setStrokeColor`,
`setStrokeWidth` and `setTool` leave every pixel of the buffer unchanged,
while `setBackgroundColor` additionally fills every pixel of the buffer
with the new background color. -/
theorem setters_buffer_effect (st : AppState) (c c2 : String) (w : Rat)
    (t : Tool) (hc : st.hasCanvas = true) (hx : st.hasCtx = true) :
    (setStrokeColorOp c st).canvas.buf = st.canvas.buf ∧
    (setStrokeWidthOp w st).canvas.buf = st.canvas.buf ∧
    (setToolOp t st).canvas.buf = st.canvas.buf ∧
    ∀ i j, i < st.canvas.width → j < st.canvas.height →
      (setBackgroundColorOp c2 st).canvas.buf i j = c2 := by
  refine ⟨by rw [setStrokeColorOp_canvas], by rw [setStrokeWidthOp_canvas],
    by rw [setToolOp_canvas], ?_⟩
  intro i j hi hj
  simp [setBackgroundColorOp, updateCanvasBg, syncEffect, fillRectFull,
    hc, hx, hi, hj]

theorem setters_buffer_effect_witness :
    (setStrokeColorOp "#e03130" sampleState).canvas.buf =
      sampleState.canvas.buf ∧
    (setStrokeWidthOp 10 sampleState).canvas.buf = sampleState.canvas.buf ∧
    (setToolOp Tool.eraser sampleState).canvas.buf = sampleState.canvas.buf ∧
    ∀ i j, i < sampleState.canvas.width → j < sampleState.canvas.height →
      (setBackgroundColorOp "#2f9e44" sampleState).canvas.buf i j =
        "#2f9e44" :=
  setters_buffer_effect sampleState "#e03130" "#2f9e44" 10 Tool.eraser rfl rfl

/-- C4: on an initialized surface, running the resize handler with an
unchanged container size reproduces exactly the same buffer contents: the
dimensions are unchanged and every in-bounds pixel keeps its value
(snapshot, reallocate to the same size, fill with background, restore the
snapshot at zero offset). -/
theorem handleResize_same_size_id (st : AppState)
    (hc : st.hasCanvas = true) (hx : st.hasCtx = true) :
    (handleResize st.canvas.width st.canvas.height st).canvas.width =
      st.canvas.width ∧
    (handleResize st.canvas.width st.canvas.height st).canvas.height =
      st.canvas.height ∧
    ∀ i j, i < st.canvas.width → j < st.canvas.height →
      (handleResize st.canvas.width st.canvas.height st).canvas.buf i j =
        st.canvas.buf i j := by
  refine ⟨?_, ?_, ?_⟩ <;>
    simp [handleResize, hc, hx, resizedBuf, resizeOffset]
  intro i j hi hj
  simp [hi, hj]

theorem handleResize_same_size_id_witness :
    (handleResize sampleState.canvas.width sampleState.canvas.height
      sampleState).canvas.width = sampleState.canvas.width ∧
    (handleResize sampleState.canvas.width sampleState.canvas.height
      sampleState).canvas.height = sampleState.canvas.height ∧
    ∀ i j, i < sampleState.canvas.width → j < sampleState.canvas.height →
      (handleResize sampleState.canvas.width sampleState.canvas.height
        sampleState).canvas.buf i j = sampleState.canvas.buf i j :=
  handleResize_same_size_id sampleState rfl rfl
theorem handleResize_buf (clientW clientH : Nat) (st : AppState)
    (hc : st.hasCanvas = true) (hx : st.hasCtx = true) :
    (handleResize clientW clientH st).canvas.buf =
      resizedBuf clientW clientH st.canvas.width st.canvas.height
        (resizeOffset clientW st.canvas.width)
        (resizeOffset clientH st.canvas.height)
        st.bgColor st.canvas.buf := by
  simp [handleResize, hc, hx]

theorem handleResize_fields (clientW clientH : Nat) (st : AppState) :
    (handleResize clientW clientH st).hasCanvas = st.hasCanvas ∧
    (handleResize clientW clientH st).hasCtx = st.hasCtx ∧
    (handleResize clientW clientH st).bgColor = st.bgColor := by
  simp only [handleResize]
  split_ifs <;> exact ⟨rfl, rfl, rfl⟩

theorem handleResize_dims (clientW clientH : Nat) (st : AppState)
    (hc : st.hasCanvas = true) (hx : st.hasCtx = true) :
    (handleResize clientW clientH st).canvas.width = clientW ∧
    (handleResize clientW clientH st).canvas.height = clientH := by
  simp [handleResize, hc, hx]

theorem resizeOffset_of_ge (newSize oldSize : Nat) (h : oldSize ≤ newSize) :
    resizeOffset newSize oldSize = (newSize - oldSize) / 2 := by
  simp [resizeOffset, h]

theorem resizeOffset_shrink (newSize oldSize : Nat) (h : newSize ≤ oldSize) :
    resizeOffset newSize oldSize = 0 := by
  unfold resizeOffset
  split_ifs with h2
  · have : newSize = oldSize := le_antisymm h h2
    omega
  · rfl

/-- C1, amended: on an initialized surface, growing to `W x H` and then
resizing back to the original size does not restore the content in place:
each surviving pixel is the original pixel translated by the grow offset
`((W - w)/2, (H - h)/2)`, content within that offset of the top/left edge
is replaced by background (and content near the right/bottom edge is
lost), because the shrink pastes the snapshot at offset 0 (clipped from
the top-left corner, not from center). -/
theorem handleResize_roundtrip_translates (st : AppState) (W H : Nat)
    (hc : st.hasCanvas = true) (hx : st.hasCtx = true)
    (hW : st.canvas.width ≤ W) (hH : st.canvas.height ≤ H) :
    ∀ i j, i < st.canvas.width → j < st.canvas.height →
      (handleResize st.canvas.width st.canvas.height
          (handleResize W H st)).canvas.buf i j =
        if (W - st.canvas.width) / 2 ≤ i ∧ (H - st.canvas.height) / 2 ≤ j then
          st.canvas.buf (i - (W - st.canvas.width) / 2)
            (j - (H - st.canvas.height) / 2)
        else st.bgColor := by
  intro i j hi hj
  obtain ⟨f1, f2, f3⟩ := handleResize_fields W H st
  obtain ⟨d1, d2⟩ := handleResize_dims W H st hc hx
  rw [handleResize_buf _ _ _ (f1.trans hc) (f2.trans hx), d1, d2, f3,
    handleResize_buf _ _ _ hc hx,
    resizeOffset_shrink _ _ hW, resizeOffset_shrink _ _ hH,
    resizeOffset_of_ge _ _ hW, resizeOffset_of_ge _ _ hH]
  unfold resizedBuf
  split_ifs <;> first | rfl | omega

theorem handleResize_roundtrip_translates_witness :
    sampleState.canvas.width ≤ 4 ∧ sampleState.canvas.height ≤ 1 ∧
    ((handleResize sampleState.canvas.width sampleState.canvas.height
        (handleResize 4 1 sampleState)).canvas.buf 0 0 =
      if (4 - sampleState.canvas.width) / 2 ≤ 0 ∧
         (1 - sampleState.canvas.height) / 2 ≤ 0 then
        sampleState.canvas.buf (0 - (4 - sampleState.canvas.width) / 2)
          (0 - (1 - sampleState.canvas.height) / 2)
      else sampleState.bgColor) :=
  ⟨by decide, by decide,
    handleResize_roundtrip_translates sampleState 4 1 rfl rfl (by decide)
      (by decide) 0 0 (by decide) (by decide)⟩

/-- C1, counterexample: the round-trip preservation claim fails on a
concrete run.  The initialized 2x1 sample surface holds `#111111` at
pixel (0,0) and `#222222` at pixel (1,0).  The resize sequence 2x1 to 4x1
and back to 2x1 ends at the size before the first resize, yet afterwards
pixel (0,0) holds the background `#ffffff` and pixel (1,0) holds
`#111111`: no pixel of the original content is bit-exact in place — the
surviving content is shifted right by the grow offset 1 and the rest was
clipped away. -/
theorem resize_roundtrip_cex :
    (handleResize 2 1 (handleResize 4 1 sampleState)).canvas.width = 2 ∧
    (handleResize 2 1 (handleResize 4 1 sampleState)).canvas.height = 1 ∧
    (handleResize 2 1 (handleResize 4 1 sampleState)).canvas.buf 0 0 =
      "#ffffff" ∧
    (handleResize 2 1 (handleResize 4 1 sampleState)).canvas.buf 1 0 =
      "#111111" ∧
    sampleState.canvas.buf 0 0 = "#111111" ∧
    sampleState.canvas.buf 1 0 = "#222222" ∧
    (handleResize 2 1 (handleResize 4 1 sampleState)).canvas.buf 0 0 ≠
      sampleState.canvas.buf 0 0 ∧
    (handleResize 2 1 (handleResize 4 1 sampleState)).canvas.buf 1 0 ≠
      sampleState.canvas.buf 1 0 := by
  refine ⟨rfl, rfl, rfl, rfl, rfl, rfl, ?_, ?_⟩ <;> decide

/-- C5: for every positive source image size and positive target buffer
size, `applyImageToCanvas` scales by the cover factor and centers, so the
destination rectangle of the drawn image contains the whole buffer: its
origin is at or left of and at or above `(0, 0)`, and its far corner is at
or beyond `(canvasW, canvasH)` — no transparent border, no letterboxing. -/
theorem applyImageToCanvas_covers (canvasW canvasH imgW imgH : Rat)
    (hiw : 0 < imgW) (hih : 0 < imgH) (hcw : 0 < canvasW)
    (hch : 0 < canvasH) :
    (applyImageToCanvas canvasW canvasH imgW imgH).1 ≤ 0 ∧
    (applyImageToCanvas canvasW canvasH imgW imgH).2.1 ≤ 0 ∧
    canvasW ≤ (applyImageToCanvas canvasW canvasH imgW imgH).1 +
      imgW * (applyImageToCanvas canvasW canvasH imgW imgH).2.2 ∧
    canvasH ≤ (applyImageToCanvas canvasW canvasH imgW imgH).2.1 +
      imgH * (applyImageToCanvas canvasW canvasH imgW imgH).2.2 := by
  have h1 : canvasW / imgW ≤ max (canvasW / imgW) (canvasH / imgH) :=
    le_max_left _ _
  have h2 : canvasH / imgH ≤ max (canvasW / imgW) (canvasH / imgH) :=
    le_max_right _ _
  rw [div_le_iff hiw] at h1
  rw [div_le_iff hih] at h2
  simp only [applyImageToCanvas]
  refine ⟨?_, ?_, ?_, ?_⟩ <;> nlinarith [h1, h2]

theorem applyImageToCanvas_covers_witness :
    (0 : Rat) < 4 ∧ (0 : Rat) < 3 ∧ (0 : Rat) < 16 ∧ (0 : Rat) < 9 ∧
    ((applyImageToCanvas 16 9 4 3).1 ≤ 0 ∧
     (applyImageToCanvas 16 9 4 3).2.1 ≤ 0 ∧
     16 ≤ (applyImageToCanvas 16 9 4 3).1 +
       4 * (applyImageToCanvas 16 9 4 3).2.2 ∧
     9 ≤ (applyImageToCanvas 16 9 4 3).2.1 +
       3 * (applyImageToCanvas 16 9 4 3).2.2) :=
  ⟨by norm_num, by norm_num, by norm_num, by norm_num,
    applyImageToCanvas_covers 16 9 4 3 (by norm_num) (by norm_num)
      (by norm_num) (by norm_num)⟩

/-- C9, counterexample: the exported filename does not match the spec's
pattern `Drawing YYYY-MM-DD at H.MM.SS AM/PM .png`.  `saveImage` on the
concrete mounted sample surface names the file with the constant string
`drawing.png`, which fails `specPatternNecessary` (it does not start with
`Drawing `), and every filename the spec's pattern produces from any clock
reading satisfies that check.  So no clock reading makes the claim true. -/
theorem saveImage_filename_cex :
    (saveImage sampleState).map DownloadLink.download = some "drawing.png" ∧
    specPatternNecessary "drawing.png" = false := by
  refine ⟨rfl, ?_⟩
  decide

/-- C9, amended: for every mounted canvas, `saveImage` exports the
buffer's PNG encoding (`canvas.toDataURL` with MIME type `image/png`,
encoding the exact buffer pixels) under the constant filename
`drawing.png`. -/
theorem saveImage_exports_png (st : AppState) (hc : st.hasCanvas = true) :
    saveImage st = some
      { href := { mime := "image/png", width := st.canvas.width,
                  height := st.canvas.height, pixels := st.canvas.buf },
        download := "drawing.png" } := by
  simp [saveImage, toDataURL, hc]

theorem saveImage_exports_png_witness :
    saveImage sampleState = some
      { href := { mime := "image/png", width := sampleState.canvas.width,
                  height := sampleState.canvas.height,
                  pixels := sampleState.canvas.buf },
        download := "drawing.png" } :=
  saveImage_exports_png sampleState rfl

theorem draw_config (p : Pt) (st : AppState) :
    (draw p st).ctx.strokeStyle = st.ctx.strokeStyle ∧
    (draw p st).bgColor = st.bgColor ∧
    (draw p st).strokeColor = st.strokeColor := by
  simp only [draw, strokeOp]
  split_ifs <;> exact ⟨rfl, rfl, rfl⟩

theorem draw_buf_or (p : Pt) (st : AppState) (i j : Nat) :
    (draw p st).canvas.buf i j = st.canvas.buf i j ∨
    (draw p st).canvas.buf i j = st.ctx.strokeStyle := by
  unfold draw
  split_ifs with h
  · simp only [strokeOp, strokedBuf]
    split_ifs <;> first | exact Or.inr rfl | exact Or.inl rfl
  · exact Or.inl rfl

theorem startDrawing_config (p : Pt) (st : AppState) :
    (startDrawing p st).ctx.strokeStyle = st.ctx.strokeStyle ∧
    (startDrawing p st).bgColor = st.bgColor ∧
    (startDrawing p st).strokeColor = st.strokeColor := by
  simp only [startDrawing, strokeOp]
  split_ifs <;> exact ⟨rfl, rfl, rfl⟩

theorem startDrawing_buf_or (p : Pt) (st : AppState) (i j : Nat) :
    (startDrawing p st).canvas.buf i j = st.canvas.buf i j ∨
    (startDrawing p st).canvas.buf i j = st.ctx.strokeStyle := by
  unfold startDrawing
  split_ifs with h
  · simp only [strokeOp, strokedBuf]
    split_ifs <;> first | exact Or.inr rfl | exact Or.inl rfl
  · exact Or.inl rfl

theorem gestureFold_buf_or (moves : List Pt) :
    ∀ (st : AppState) (i j : Nat),
      (gestureFold moves st).canvas.buf i j = st.canvas.buf i j ∨
      (gestureFold moves st).canvas.buf i j = st.ctx.strokeStyle := by
  induction moves with
  | nil => intro st i j; exact Or.inl rfl
  | cons q qs ih =>
    intro st i j
    have hstep : gestureFold (q :: qs) st = gestureFold qs (draw q st) := rfl
    rw [hstep]
    rcases ih (draw q st) i j with h2 | h2
    · rw [h2]; exact draw_buf_or q st i j
    · rw [h2, (draw_config q st).1]; exact Or.inr rfl

theorem setToolOp_strokeStyle (t : Tool) (st : AppState)
    (hx : st.hasCtx = true) :
    (setToolOp t st).ctx.strokeStyle =
      if t = Tool.eraser then st.bgColor else st.strokeColor := by
  simp [setToolOp, updateCanvasTool, syncEffect, effectiveStroke, hx]

/-- C6: on an initialized surface, every pixel painted by a stroke drawn
after `setTool t` (a pointer-down at `p` followed by any sequence of move
events) equals the background color current at paint time when `t` is the
eraser, and the stroke color when `t` is the pencil; all other pixels are
untouched. -/
theorem tool_strokes_paint_effective_color (st : AppState) (t : Tool)
    (p : Pt) (moves : List Pt) (hx : st.hasCtx = true) (i j : Nat) :
    (gestureFold moves (startDrawing p (setToolOp t st))).canvas.buf i j =
      st.canvas.buf i j ∨
    (gestureFold moves (startDrawing p (setToolOp t st))).canvas.buf i j =
      (if t = Tool.eraser then st.bgColor else st.strokeColor) := by
  have hcanvas : (setToolOp t st).canvas = st.canvas := setToolOp_canvas t st
  have hss := setToolOp_strokeStyle t st hx
  rcases gestureFold_buf_or moves (startDrawing p (setToolOp t st)) i j with
    h2 | h2
  · rw [h2]
    rcases startDrawing_buf_or p (setToolOp t st) i j with h1 | h1
    · rw [h1, hcanvas]; exact Or.inl rfl
    · rw [h1, hss]; exact Or.inr rfl
  · rw [h2, (startDrawing_config p (setToolOp t st)).1, hss]
    exact Or.inr rfl

theorem tool_strokes_paint_effective_color_witness :
    (gestureFold [] (startDrawing { x := 0, y := 0 }
        (setToolOp Tool.eraser sampleState))).canvas.buf 0 0 =
      sampleState.canvas.buf 0 0 ∨
    (gestureFold [] (startDrawing { x := 0, y := 0 }
        (setToolOp Tool.eraser sampleState))).canvas.buf 0 0 =
      (if Tool.eraser = Tool.eraser then sampleState.bgColor
       else sampleState.strokeColor) :=
  tool_strokes_paint_effective_color sampleState Tool.eraser
    { x := 0, y := 0 } [] rfl 0 0
